import Mathlib

/-!
Verification development for the JumpStart example notebooks
(text embedding, extractive question answering, tabular regression,
semantic segmentation, instance segmentation, image embedding) and the
lineage-query notebook.  Python code from the notebook cells is shallowly
embedded: pure helper functions become Lean functions, the sequence of
vendor-SDK calls issued by a notebook becomes an explicit trace (a list of
events), and fallible code returns `Option`.
-/

namespace SMExamples

/-! ## The VOC palette helper (`getvocpalette`, semantic segmentation notebook)

Python source:
```
def getvocpalette(num_cls):
    n = num_cls
    palette = [0] * (n * 3)
    for j in range(0, n):
        lab = j
        palette[j * 3 + 0] = 0
        palette[j * 3 + 1] = 0
        palette[j * 3 + 2] = 0
        i = 0
        while lab > 0:
            palette[j * 3 + 0] |= ((lab >> 0) & 1) << (7 - i)
            palette[j * 3 + 1] |= ((lab >> 1) & 1) << (7 - i)
            palette[j * 3 + 2] |= ((lab >> 2) & 1) << (7 - i)
            i = i + 1
            lab >>= 3
    return palette
```
Each iteration of the outer loop touches only the three slots
`3*j, 3*j+1, 3*j+2`, so the final list is the concatenation of the
per-label triples.  The inner `while` loop is embedded with an explicit
fuel argument (the loop variable `lab` strictly decreases, every three
bits per step, so `lab` itself is always enough fuel); this keeps the
definition structurally recursive and hence evaluable by `decide`.
Caveat: in Python `7 - i` is a negative shift count (a `ValueError`) once
`i` exceeds 7, which is reachable only for labels of at least `2 ^ 24`;
Lean's truncated `Nat` subtraction is used instead, which agrees with the
source on every label below `2 ^ 24` and in particular on the whole range
relevant to the claims (`num_cls` at most 256). -/

def vocLoop : Nat → Nat → Nat → Nat → Nat → Nat → Nat × Nat × Nat
  | 0, _, _, c0, c1, c2 => (c0, c1, c2)
  | fuel + 1, lab, i, c0, c1, c2 =>
    if lab > 0 then
      vocLoop fuel (lab >>> 3) (i + 1)
        (c0 ||| (((lab >>> 0) &&& 1) <<< (7 - i)))
        (c1 ||| (((lab >>> 1) &&& 1) <<< (7 - i)))
        (c2 ||| (((lab >>> 2) &&& 1) <<< (7 - i)))
    else (c0, c1, c2)

/-- The RGB triple that `getvocpalette` computes for label `j`
(the slots start at `0, 0, 0` as in the source). -/
def vocTriple (j : Nat) : Nat × Nat × Nat :=
  vocLoop j j 0 0 0 0

def getvocpalette (num_cls : Nat) : List Nat :=
  (List.range num_cls).flatMap
    (fun j => [(vocTriple j).1, (vocTriple j).2.1, (vocTriple j).2.2])

/-- Reassemble a label below `2 ^ 24` from its palette triple: bit
`3 * k + c` of the label was deposited at bit `7 - k` of channel `c`. -/
def vocDecode (t : Nat × Nat × Nat) : Nat :=
  (((t.1 >>> 7) &&& 1) <<< 0) ||| (((t.2.1 >>> 7) &&& 1) <<< 1) |||
  (((t.2.2 >>> 7) &&& 1) <<< 2) ||| (((t.1 >>> 6) &&& 1) <<< 3) |||
  (((t.2.1 >>> 6) &&& 1) <<< 4) ||| (((t.2.2 >>> 6) &&& 1) <<< 5) |||
  (((t.1 >>> 5) &&& 1) <<< 6) ||| (((t.2.1 >>> 5) &&& 1) <<< 7)

set_option maxRecDepth 8192 in
lemma vocDecode_vocTriple : ∀ j < 256, vocDecode (vocTriple j) = j := by
  decide

set_option maxRecDepth 8192 in
lemma vocTriple_lt :
    ∀ j < 256,
      (vocTriple j).1 < 256 ∧ (vocTriple j).2.1 < 256 ∧ (vocTriple j).2.2 < 256 := by
  decide

lemma vocTriple_zero : vocTriple 0 = (0, 0, 0) := rfl

lemma getvocpalette_succ (n : Nat) :
    getvocpalette (n + 1) = getvocpalette n ++
      [(vocTriple n).1, (vocTriple n).2.1, (vocTriple n).2.2] := by
  simp [getvocpalette, List.range_succ]

lemma getvocpalette_length (n : Nat) : (getvocpalette n).length = 3 * n := by
  induction n with
  | zero => rfl
  | succ m ih =>
      rw [getvocpalette_succ, List.length_append, ih]
      simp
      ring

lemma getvocpalette_getD (n j : Nat) (hj : j < n) :
    (getvocpalette n).getD (3 * j) 0 = (vocTriple j).1 ∧
    (getvocpalette n).getD (3 * j + 1) 0 = (vocTriple j).2.1 ∧
    (getvocpalette n).getD (3 * j + 2) 0 = (vocTriple j).2.2 := by
  induction n with
  | zero => omega
  | succ m ih =>
      rw [getvocpalette_succ]
      rcases Nat.lt_succ_iff_lt_or_eq.mp hj with h | h
      · have hlen : 3 * j + 2 < (getvocpalette m).length := by
          rw [getvocpalette_length]; omega
        refine ⟨?_, ?_, ?_⟩ <;>
          rw [List.getD_append _ _ _ _ (by omega)] <;>
          [exact (ih h).1; exact (ih h).2.1; exact (ih h).2.2]
      · subst h
        have hlen : (getvocpalette j).length = 3 * j := getvocpalette_length j
        refine ⟨?_, ?_, ?_⟩ <;>
          [rw [List.getD_append_right _ _ _ _ (by omega)];
           rw [List.getD_append_right _ _ _ _ (by omega)];
           rw [List.getD_append_right _ _ _ _ (by omega)]] <;>
          simp [hlen]

lemma mem_getvocpalette {n x : Nat} (hx : x ∈ getvocpalette n) :
    ∃ j, j < n ∧
      (x = (vocTriple j).1 ∨ x = (vocTriple j).2.1 ∨ x = (vocTriple j).2.2) := by
  simp only [getvocpalette, List.mem_flatMap, List.mem_range] at hx
  obtain ⟨j, hj, hmem⟩ := hx
  exact ⟨j, hj, by simpa using hmem⟩

/-! ## The bounding-box plotting helper (`plot_bbox`, instance segmentation notebook)

Python source (the drawing core; matplotlib rendering of the resulting
rectangles is outside the embedding, the emitted rectangles are the
observable):
```
colors = dict()
for i, bbox in enumerate(bboxes):
    if scores.flat[i] < thresh or labels.flat[i] < 0:
        continue
    cls_id = int(labels.flat[i]) if labels is not None else -1
    if cls_id not in colors:
        if class_names is not None:
            colors[cls_id] = plt.get_cmap("hsv")(cls_id / len(class_names))
        else:
            colors[cls_id] = (random.random(), random.random(), random.random())
    xmin, ymin, xmax, ymax = [int(x) for x in bbox]
    rect = plt.Rectangle((xmin, ymin), xmax - xmin, ymax - ymin, fill=False,
                         edgecolor=colors[cls_id], linewidth=linewidth)
    ax.add_patch(rect)
    ...
```
Floating-point scores and box coordinates are modelled as rationals (only
order comparisons and truncation to `int` are performed on them), the
colormap `plt.get_cmap("hsv")` is an opaque oracle `cmap`, and the
`random.random()` branch draws from an opaque stream `rand` indexed by how
many colors have been assigned so far.  The notebook invokes `plot_bbox`
with `class_names` present and with `bboxes`, `scores`, `labels` of equal
length; out-of-range `flat[i]` (an `IndexError` in Python) does not arise
there, so list indexing uses `getD`. -/

/-- Python `int(...)` on a rational: truncation toward zero. -/
def pyInt (q : ℚ) : Int :=
  if q < 0 then -((-q).floor) else q.floor

/-- First-match association-list lookup, the model of Python dict access
(keys are inserted at most once, so first match is the only match). -/
def dictFind {γ : Type} : List (Int × γ) → Int → Option γ
  | [], _ => none
  | (k2, c) :: rest, k => if k2 = k then some c else dictFind rest k

/-- One rectangle emitted by `plot_bbox` (position, size, and the class id
and edge color used for it). -/
structure PltRect (γ : Type) where
  xmin : Int
  ymin : Int
  width : Int
  height : Int
  cls_id : Int
  edgecolor : γ
deriving DecidableEq

/-- The color assigned to a class the first time it is seen:
`cmap(cls_id / len(class_names))` when `class_names` is present, otherwise
the next value of the random stream. -/
def newColor {γ : Type} (class_names : Option (List String)) (cmap : ℚ → γ)
    (rand : Nat → γ) (assigned : Nat) (cls_id : Int) : γ :=
  match class_names with
  | some names => cmap ((cls_id : ℚ) / (names.length : ℚ))
  | none => rand assigned

/-- The rectangle built for a kept detection `(i, bbox)` with edge color `c`. -/
def mkRect {γ : Type} (labels : List ℚ) (i : Nat) (bbox : List ℚ) (c : γ) :
    PltRect γ :=
  let xmin := pyInt (bbox.getD 0 0)
  let ymin := pyInt (bbox.getD 1 0)
  let xmax := pyInt (bbox.getD 2 0)
  let ymax := pyInt (bbox.getD 3 0)
  ⟨xmin, ymin, xmax - xmin, ymax - ymin, pyInt (labels.getD i 0), c⟩

/-- The `for i, bbox in enumerate(bboxes)` loop of `plot_bbox`, with the
`colors` dict threaded through. -/
def plotBboxGo {γ : Type} (scores labels : List ℚ) (thresh : ℚ)
    (class_names : Option (List String)) (cmap : ℚ → γ) (rand : Nat → γ)
    (colors : List (Int × γ)) : List (Nat × List ℚ) → List (PltRect γ)
  | [] => []
  | (i, bbox) :: rest =>
    if scores.getD i 0 < thresh ∨ labels.getD i 0 < 0 then
      plotBboxGo scores labels thresh class_names cmap rand colors rest
    else
      let cls_id : Int := pyInt (labels.getD i 0)
      match dictFind colors cls_id with
      | some c =>
          mkRect labels i bbox c ::
            plotBboxGo scores labels thresh class_names cmap rand colors rest
      | none =>
          let c := newColor class_names cmap rand colors.length cls_id
          mkRect labels i bbox c ::
            plotBboxGo scores labels thresh class_names cmap rand
              ((cls_id, c) :: colors) rest

/-- The rectangles drawn by `plot_bbox` (in drawing order). -/
def plot_bbox {γ : Type} (bboxes : List (List ℚ)) (scores labels : List ℚ)
    (thresh : ℚ) (class_names : Option (List String)) (cmap : ℚ → γ)
    (rand : Nat → γ) : List (PltRect γ) :=
  plotBboxGo scores labels thresh class_names cmap rand [] bboxes.enum

/-- The guard of the `continue` in `plot_bbox`: detection `i` is kept iff
its score reaches the threshold and its label is nonnegative. -/
def keepDet (scores labels : List ℚ) (thresh : ℚ) (ib : Nat × List ℚ) : Bool :=
  if scores.getD ib.1 0 < thresh ∨ labels.getD ib.1 0 < 0 then false else true

lemma dictFind_invariant {γ : Type} (names : List String) (cmap : ℚ → γ)
    (colors : List (Int × γ))
    (inv : ∀ kc ∈ colors, kc.2 = cmap ((kc.1 : ℚ) / (names.length : ℚ)))
    (k : Int) (c : γ) (h : dictFind colors k = some c) :
    c = cmap ((k : ℚ) / (names.length : ℚ)) := by
  induction colors with
  | nil => simp [dictFind] at h
  | cons kc rest ih =>
      obtain ⟨k2, c2⟩ := kc
      by_cases hk : k2 = k
      · subst hk
        simp [dictFind] at h
        subst h
        simpa using inv (k2, c2) (by simp)
      · simp [dictFind, hk] at h
        exact ih (fun kc hkc => inv kc (List.mem_cons_of_mem _ hkc)) h

/-- With `class_names` present, the loop emits exactly one rectangle per
kept detection, colored by the class colormap, whatever the `colors` dict
already contains (as long as it respects the colormap). -/
lemma plotBboxGo_classNames {γ : Type} (scores labels : List ℚ) (thresh : ℚ)
    (names : List String) (cmap : ℚ → γ) (rand : Nat → γ)
    (colors : List (Int × γ))
    (inv : ∀ kc ∈ colors, kc.2 = cmap ((kc.1 : ℚ) / (names.length : ℚ)))
    (l : List (Nat × List ℚ)) :
    plotBboxGo scores labels thresh (some names) cmap rand colors l =
      (l.filter (keepDet scores labels thresh)).map
        (fun ib => mkRect labels ib.1 ib.2
          (cmap ((pyInt (labels.getD ib.1 0) : ℚ) / (names.length : ℚ)))) := by
  induction l generalizing colors with
  | nil => rfl
  | cons ib rest ih =>
      obtain ⟨i, bbox⟩ := ib
      by_cases hskip : scores.getD i 0 < thresh ∨ labels.getD i 0 < 0
      · rw [plotBboxGo, if_pos hskip]
        have : keepDet scores labels thresh (i, bbox) = false := by
          simp only [keepDet]
          rw [if_pos hskip]
        rw [List.filter_cons, this]
        simp only [Bool.false_eq_true, if_false]
        exact ih colors inv
      · rw [plotBboxGo, if_neg hskip]
        have hkeep : keepDet scores labels thresh (i, bbox) = true := by
          simp only [keepDet]
          rw [if_neg hskip]
        rw [List.filter_cons, hkeep]
        simp only [if_true, List.map_cons]
        cases hfind : dictFind colors (pyInt (labels.getD i 0)) with
        | some c =>
            rw [dictFind_invariant names cmap colors inv _ c hfind]
            exact congrArg _ (ih colors inv)
        | none =>
            have inv2 : ∀ kc ∈ ((pyInt (labels.getD i 0),
                newColor (some names) cmap rand colors.length
                  (pyInt (labels.getD i 0))) :: colors),
                kc.2 = cmap ((kc.1 : ℚ) / (names.length : ℚ)) := by
              intro kc hkc
              rcases List.mem_cons.mp hkc with h | h
              · subst h; rfl
              · exact inv kc h
            rw [newColor]
            exact congrArg _ (ih _ inv2)

/-- `plot_bbox` with `class_names` present: the drawn rectangles are
exactly the detections passing the score/label guard, in order, each
colored by `cmap` applied to its class id over the number of class names. -/
lemma plot_bbox_spec {γ : Type} (bboxes : List (List ℚ)) (scores labels : List ℚ)
    (thresh : ℚ) (names : List String) (cmap : ℚ → γ) (rand : Nat → γ) :
    plot_bbox bboxes scores labels thresh (some names) cmap rand =
      (bboxes.enum.filter (keepDet scores labels thresh)).map
        (fun ib => mkRect labels ib.1 ib.2
          (cmap ((pyInt (labels.getD ib.1 0) : ℚ) / (names.length : ℚ)))) :=
  plotBboxGo_classNames scores labels thresh names cmap rand []
    (by intro kc hkc; simp at hkc) bboxes.enum

/-! ## Claims C8 and C2 -/

/-- C8: for every `n ≤ 256`, `getvocpalette n` returns a list of exactly
`3 * n` integers, each in the range 0 to 255 inclusive; the first three
entries (label 0) are all 0; and the map from a label to its RGB triple
(entries `3*j`, `3*j+1`, `3*j+2`) is injective on the labels below `n`. -/
theorem C8_getvocpalette_invariants (n : Nat) (hn : n ≤ 256) :
    (getvocpalette n).length = 3 * n ∧
    (∀ x ∈ getvocpalette n, x ≤ 255) ∧
    (∀ k, k < 3 → (getvocpalette n).getD k 0 = 0) ∧
    (∀ j1 j2, j1 < n → j2 < n →
      ((getvocpalette n).getD (3 * j1) 0 = (getvocpalette n).getD (3 * j2) 0 ∧
       (getvocpalette n).getD (3 * j1 + 1) 0 = (getvocpalette n).getD (3 * j2 + 1) 0 ∧
       (getvocpalette n).getD (3 * j1 + 2) 0 = (getvocpalette n).getD (3 * j2 + 2) 0) →
      j1 = j2) := by
  refine ⟨getvocpalette_length n, ?_, ?_, ?_⟩
  · intro x hx
    obtain ⟨j, hj, hcase⟩ := mem_getvocpalette hx
    have := vocTriple_lt j (lt_of_lt_of_le hj hn)
    rcases hcase with h | h | h <;> subst h <;> omega
  · intro k hk
    cases n with
    | zero => cases k <;> simp [getvocpalette]
    | succ m =>
        interval_cases k
        · have := (getvocpalette_getD (m + 1) 0 (Nat.succ_pos m)).1
          simpa [vocTriple_zero] using this
        · have := (getvocpalette_getD (m + 1) 0 (Nat.succ_pos m)).2.1
          simpa [vocTriple_zero] using this
        · have := (getvocpalette_getD (m + 1) 0 (Nat.succ_pos m)).2.2
          simpa [vocTriple_zero] using this
  · intro j1 j2 h1 h2 heq
    obtain ⟨e1a, e1b, e1c⟩ := getvocpalette_getD n j1 h1
    obtain ⟨e2a, e2b, e2c⟩ := getvocpalette_getD n j2 h2
    have htr : vocTriple j1 = vocTriple j2 := by
      obtain ⟨ha, hb, hc⟩ := heq
      rw [e1a, e2a] at ha
      rw [e1b, e2b] at hb
      rw [e1c, e2c] at hc
      exact Prod.ext ha (Prod.ext hb hc)
    have d1 := vocDecode_vocTriple j1 (lt_of_lt_of_le h1 hn)
    have d2 := vocDecode_vocTriple j2 (lt_of_lt_of_le h2 hn)
    rw [← d1, ← d2, htr]

/-- Witness for C8 at the full palette size `n = 256`. -/
theorem C8_getvocpalette_invariants_witness :
    (getvocpalette 256).length = 3 * 256 ∧
    (∀ x ∈ getvocpalette 256, x ≤ 255) ∧
    (∀ k, k < 3 → (getvocpalette 256).getD k 0 = 0) ∧
    (∀ j1 j2, j1 < 256 → j2 < 256 →
      ((getvocpalette 256).getD (3 * j1) 0 = (getvocpalette 256).getD (3 * j2) 0 ∧
       (getvocpalette 256).getD (3 * j1 + 1) 0 = (getvocpalette 256).getD (3 * j2 + 1) 0 ∧
       (getvocpalette 256).getD (3 * j1 + 2) 0 = (getvocpalette 256).getD (3 * j2 + 2) 0) →
      j1 = j2) :=
  C8_getvocpalette_invariants 256 (le_refl 256)

/-- C2 counterexample: the repository does contain locally implemented
algorithmic logic whose input-output behaviour is fixed independently of
any external service.  `getvocpalette` computes a definite palette by bit
manipulation (shown here at `num_cls = 2`), and `plot_bbox` drops the
detection whose score 0 is below the threshold 1 while keeping the one
with score 2 — neither is a call-through to the vendor SDK. -/
theorem C2_counterexample :
    getvocpalette 2 = [0, 0, 0, 128, 0, 0] ∧
    (plot_bbox [[0, 0, 1, 1], [0, 0, 2, 2]] [2, 0] [1, 1] 1
        (some ["person", "dog"]) (fun q => q) (fun _ => 0)).length = 1 := by
  constructor
  · rfl
  · decide

/-- C2 amended: every function defined in the notebooks is a call-through
to the vendor SDK except `getvocpalette` and `plot_bbox`, which implement
local algorithmic logic with service-independent specifications: the label
to RGB-triple map of `getvocpalette` is injective on labels below 256, and
`plot_bbox` (with class names present) draws exactly the detections whose
score reaches the threshold and whose label is nonnegative, in order, each
colored by the colormap applied to its class id divided by the number of
class names. -/
theorem C2_local_algorithms :
    (∀ j1 j2, j1 < 256 → j2 < 256 → vocTriple j1 = vocTriple j2 → j1 = j2) ∧
    (∀ (γ : Type) (bboxes : List (List ℚ)) (scores labels : List ℚ)
        (thresh : ℚ) (names : List String) (cmap : ℚ → γ) (rand : Nat → γ),
      plot_bbox bboxes scores labels thresh (some names) cmap rand =
        (bboxes.enum.filter (keepDet scores labels thresh)).map
          (fun ib => mkRect labels ib.1 ib.2
            (cmap ((pyInt (labels.getD ib.1 0) : ℚ) / (names.length : ℚ))))) := by
  constructor
  · intro j1 j2 h1 h2 heq
    have d1 := vocDecode_vocTriple j1 h1
    have d2 := vocDecode_vocTriple j2 h2
    rw [← d1, ← d2, heq]
  · intro γ bboxes scores labels thresh names cmap rand
    exact plot_bbox_spec bboxes scores labels thresh names cmap rand

/-- Witness for C2's amended statement: labels 1 and 2 of the palette get
distinct triples, and a concrete `plot_bbox` run matches the filter/map
characterization. -/
theorem C2_local_algorithms_witness :
    (vocTriple 1 = vocTriple 2 → (1 : Nat) = 2) ∧
    plot_bbox [[0, 0, 1, 1]] [9/10] [1] (1/2) (some ["person"])
        (fun (q : ℚ) => q) (fun _ => 0) =
      (([[0, 0, 1, 1]] : List (List ℚ)).enum.filter
          (keepDet [9/10] [1] (1/2))).map
        (fun ib => mkRect [1] ib.1 ib.2
          ((pyInt (([1] : List ℚ).getD ib.1 0) : ℚ) / ((["person"].length : ℚ)))) :=
  ⟨C2_local_algorithms.1 1 2 (by decide) (by decide),
   C2_local_algorithms.2 ℚ [[0, 0, 1, 1]] [9/10] [1] (1/2) ["person"]
     (fun q => q) (fun _ => 0)⟩

/-! ## JSON payloads and the `parse_response` helpers

The notebooks consume endpoint responses with `json.loads` and plain dict
indexing.  JSON values are modelled by an inductive type whose leaves are
opaque (no arithmetic is ever performed on them).  `json.loads` itself is
Python-stdlib code, not repository code, so it is treated as an abstract
decoder `jsonLoads : List Nat → Option Json` (from response bytes to a
JSON value, `none` when the bytes are not valid JSON); the claims are
proved for every such decoder.  Python raises `KeyError` on a missing dict
key and `TypeError` when indexing a non-dict with a string; both are
modelled as lookup failure (`none`). -/

inductive Json where
  | null : Json
  | bool (b : Bool) : Json
  | num (s : String) : Json
  | str (s : String) : Json
  | arr (xs : List Json) : Json
  | obj (kvs : List (String × Json)) : Json

/-- Python `d[k]` on a decoded JSON value: the value stored at key `k`
(first match; `json.loads` produces dicts with unique keys), failure on a
missing key or a non-dict. -/
def jsonGet (j : Json) (k : String) : Option Json :=
  match j with
  | .obj kvs => kvs.lookup k
  | _ => none

/-- `parse_response` of the text embedding notebook (the image embedding
notebook defines the identical function):
```
def parse_response(query_response):
    model_predictions = json.loads(query_response)
    translation_text = model_predictions["embedding"]
    return translation_text
```
-/
def parse_response_embedding (jsonLoads : List Nat → Option Json)
    (query_response : List Nat) : Option Json :=
  (jsonLoads query_response).bind (fun model_predictions =>
    jsonGet model_predictions "embedding")

/-- `parse_response` of the semantic segmentation notebook:
```
def parse_response(query_response):
    response_dict = json.loads(query_response)
    return response_dict["predictions"], response_dict["labels"], response_dict["image_labels"]
```
(Python evaluates the three lookups left to right, so the first missing
key aborts; with all three present the triple of stored values is
returned unchanged.) -/
def parse_response_semseg (jsonLoads : List Nat → Option Json)
    (query_response : List Nat) : Option (Json × Json × Json) :=
  (jsonLoads query_response).bind (fun response_dict =>
    (jsonGet response_dict "predictions").bind (fun p =>
      (jsonGet response_dict "labels").bind (fun l =>
        (jsonGet response_dict "image_labels").map (fun il => (p, l, il)))))

/-- `parse_response` of the question answering notebook, used verbatim for
both the pre-trained (`base_model_predictor`) and the fine-tuned
(`finetuned_predictor`) sections:
```
def parse_response(query_response):
    model_predictions = json.loads(query_response)
    answer = (model_predictions["answer"],)
    return answer
```
The trailing comma builds a one-element tuple, modelled as a one-element
list. -/
def parse_response_eqa (jsonLoads : List Nat → Option Json)
    (query_response : List Nat) : Option (List Json) :=
  (jsonLoads query_response).bind (fun model_predictions =>
    (jsonGet model_predictions "answer").map (fun a => [a]))

/-- Identical redefinition in the fine-tuned section of the notebook. -/
def parse_response_eqa_finetuned (jsonLoads : List Nat → Option Json)
    (query_response : List Nat) : Option (List Json) :=
  (jsonLoads query_response).bind (fun model_predictions =>
    (jsonGet model_predictions "answer").map (fun a => [a]))

/-! ## Manifest filtering (C9)

Text embedding notebook:
```
text_embedding_models = []
for model in model_list:
    model_id = model["model_id"]
    if "-tcembedding-" in model_id and model_id not in text_embedding_models:
        text_embedding_models.append(model_id)
```
Question answering notebook:
```
eqa_models_all_versions, eqa_models = [
    model["model_id"] for model in model_list if "-eqa-" in model["model_id"]
], []
[eqa_models.append(model) for model in eqa_models_all_versions if model not in eqa_models]
```
A manifest record is consumed only through its `model_id` field.  Python's
substring test `needle in hay` is embedded over the character lists. -/

structure ManifestRecord where
  model_id : String
deriving DecidableEq

/-- `l1.isPrefixOfL l2`: `l1` is an initial segment of `l2`. -/
def isPrefixOfL : List Char → List Char → Bool
  | [], _ => true
  | _ :: _, [] => false
  | a :: l1, b :: l2 => a = b && isPrefixOfL l1 l2

/-- Python `needle in hay` for strings: `needle` occurs contiguously in
`hay`. -/
def strContains (hay needle : String) : Bool :=
  go hay.toList needle.toList
where
  go : List Char → List Char → Bool
    | [], n => n.isEmpty
    | h :: hs, n => isPrefixOfL n (h :: hs) || go hs n

/-- The accumulating loop shared by both manifest filters: walk the id
list, appending an id when it satisfies `p` and is not yet in the
accumulator. -/
def dedupAppend (p : String → Bool) (acc : List String) : List String → List String
  | [] => acc
  | m :: rest =>
      dedupAppend p (if p m && !(acc.contains m) then acc ++ [m] else acc) rest

def text_embedding_models (model_list : List ManifestRecord) : List String :=
  dedupAppend (fun model_id => strContains model_id "-tcembedding-") []
    (model_list.map (fun model => model.model_id))

def eqa_models (model_list : List ManifestRecord) : List String :=
  let eqa_models_all_versions :=
    (model_list.filter (fun model => strContains model.model_id "-eqa-")).map
      (fun model => model.model_id)
  dedupAppend (fun _ => true) [] eqa_models_all_versions

/-- Recursive form of `dedupAppend` that produces only the appended part:
the ids kept from `l`, given that the ids in `acc` are already taken. -/
def fdAux (p : String → Bool) (acc : List String) : List String → List String
  | [] => []
  | m :: rest =>
      if p m && !(acc.contains m) then m :: fdAux p (acc ++ [m]) rest
      else fdAux p acc rest

lemma bnot_ne_true {b : Bool} (h : (!b) ≠ true) : b = true := by
  cases b <;> simp at h ⊢

lemma dedupAppend_eq_fdAux (p : String → Bool) (acc l : List String) :
    dedupAppend p acc l = acc ++ fdAux p acc l := by
  induction l generalizing acc with
  | nil => simp [dedupAppend, fdAux]
  | cons m rest ih =>
      rw [dedupAppend, fdAux]
      by_cases h : p m && !(acc.contains m)
      · rw [if_pos h, if_pos h, ih, List.append_assoc]
        rfl
      · rw [if_neg h, if_neg h, ih]

lemma mem_fdAux (p : String → Bool) (l : List String) :
    ∀ (acc : List String) (x : String),
      x ∈ fdAux p acc l ↔ x ∈ l ∧ p x = true ∧ x ∉ acc := by
  induction l with
  | nil => intro acc x; simp [fdAux]
  | cons m rest ih =>
      intro acc x
      rw [fdAux]
      by_cases h : p m && !(acc.contains m)
      · rw [if_pos h]
        obtain ⟨hpm, hmacc⟩ := Bool.and_eq_true_iff.mp h
        have hmnotin : m ∉ acc := by
          intro hc
          rw [Bool.not_eq_true', ← Bool.not_eq_true] at hmacc
          exact hmacc (List.elem_iff.mpr hc)
        constructor
        · intro hx
          rcases List.mem_cons.mp hx with rfl | hx
          · exact ⟨List.mem_cons_self _ _, hpm, hmnotin⟩
          · have := (ih (acc ++ [m]) x).mp hx
            refine ⟨List.mem_cons_of_mem _ this.1, this.2.1, ?_⟩
            intro hc
            exact this.2.2 (List.mem_append_left _ hc)
        · rintro ⟨hmem, hpx, hnacc⟩
          rcases List.mem_cons.mp hmem with rfl | hmem
          · exact List.mem_cons_self _ _
          · by_cases hxm : x = m
            · subst hxm; exact List.mem_cons_self _ _
            · refine List.mem_cons_of_mem _ ((ih (acc ++ [m]) x).mpr ⟨hmem, hpx, ?_⟩)
              intro hc
              rcases List.mem_append.mp hc with hc | hc
              · exact hnacc hc
              · exact hxm (List.mem_singleton.mp hc)
      · rw [if_neg h]
        rw [Bool.and_eq_true_iff] at h
        push_neg at h
        constructor
        · intro hx
          have := (ih acc x).mp hx
          exact ⟨List.mem_cons_of_mem _ this.1, this.2⟩
        · rintro ⟨hmem, hpx, hnacc⟩
          rcases List.mem_cons.mp hmem with rfl | hmem
          · exact absurd (List.elem_iff.mp (bnot_ne_true (h hpx))) hnacc
          · exact (ih acc x).mpr ⟨hmem, hpx, hnacc⟩

lemma nodup_fdAux (p : String → Bool) (l : List String) :
    ∀ acc : List String, (fdAux p acc l).Nodup := by
  induction l with
  | nil => intro acc; simp [fdAux]
  | cons m rest ih =>
      intro acc
      rw [fdAux]
      by_cases h : p m && !(acc.contains m)
      · rw [if_pos h]
        refine List.nodup_cons.mpr ⟨?_, ih (acc ++ [m])⟩
        intro hc
        have := (mem_fdAux p rest (acc ++ [m]) m).mp hc
        exact this.2.2 (List.mem_append_right _ (List.mem_singleton_self m))
      · rw [if_neg h]; exact ih acc

lemma pairwise_fdAux (p : String → Bool) (l : List String) :
    ∀ acc : List String,
      (fdAux p acc l).Pairwise (fun a b => l.indexOf a < l.indexOf b) := by
  induction l with
  | nil => intro acc; simp [fdAux]
  | cons m rest ih =>
      intro acc
      have lift : ∀ (acc2 : List String), m ∉ fdAux p acc2 rest →
          (fdAux p acc2 rest).Pairwise
            (fun a b => (m :: rest).indexOf a < (m :: rest).indexOf b) := by
        intro acc2 hm
        refine (ih acc2).imp_of_mem ?_
        intro a b ha hb hab
        have hane : a ≠ m := fun hc => hm (hc ▸ ha)
        have hbne : b ≠ m := fun hc => hm (hc ▸ hb)
        rw [List.indexOf_cons_ne rest (Ne.symm hane),
          List.indexOf_cons_ne rest (Ne.symm hbne)]
        omega
      rw [fdAux]
      by_cases h : p m && !(acc.contains m)
      · rw [if_pos h]
        have hmnot : m ∉ fdAux p (acc ++ [m]) rest := by
          intro hc
          exact ((mem_fdAux p rest (acc ++ [m]) m).mp hc).2.2
            (List.mem_append_right _ (List.mem_singleton_self m))
        refine List.pairwise_cons.mpr ⟨?_, lift (acc ++ [m]) hmnot⟩
        intro b hb
        have hbne : b ≠ m := fun hc => hmnot (hc ▸ hb)
        rw [List.indexOf_cons_self, List.indexOf_cons_ne rest (Ne.symm hbne)]
        omega
      · rw [if_neg h]
        rw [Bool.and_eq_true_iff] at h
        push_neg at h
        have hmnot : m ∉ fdAux p acc rest := by
          intro hc
          obtain ⟨_, hpm, hnacc⟩ := (mem_fdAux p rest acc m).mp hc
          exact hnacc (List.elem_iff.mp (bnot_ne_true (h hpm)))
        exact lift acc hmnot

/-- The comprehension-then-dedup form used by the question answering
notebook computes the same list as the single filtered loop. -/
lemma dedupAppend_filter (p : String → Bool) (l : List String) :
    ∀ acc : List String,
      dedupAppend (fun _ => true) acc (l.filter p) = dedupAppend p acc l := by
  induction l with
  | nil => intro acc; rfl
  | cons m rest ih =>
      intro acc
      by_cases hpm : p m
      · rw [List.filter_cons_of_pos hpm, dedupAppend, dedupAppend, hpm]
        simp only [Bool.true_and]
        exact ih _
      · rw [List.filter_cons_of_neg (by simpa using hpm), dedupAppend]
        rw [(by simp [hpm] : (p m && !(acc.contains m)) = false)]
        simp only [Bool.false_eq_true, if_false]
        exact ih acc

lemma map_model_id_filter (model_list : List ManifestRecord) (p : String → Bool) :
    (model_list.filter (fun model => p model.model_id)).map
        (fun model => model.model_id) =
      (model_list.map (fun model => model.model_id)).filter p := by
  induction model_list with
  | nil => rfl
  | cons r rest ih =>
      by_cases h : p r.model_id
      · simp [List.filter_cons, h, ih]
      · simp [List.filter_cons, h, ih]

/-- The standalone characterization behind C9, proved once for an
arbitrary predicate and instantiated with the two task substrings. -/
lemma dedupAppend_spec (p : String → Bool) (ids : List String) :
    (∀ x, x ∈ dedupAppend p [] ids ↔ x ∈ ids ∧ p x = true) ∧
    (dedupAppend p [] ids).Nodup ∧
    (dedupAppend p [] ids).Pairwise (fun a b => ids.indexOf a < ids.indexOf b) := by
  rw [dedupAppend_eq_fdAux, List.nil_append]
  refine ⟨?_, nodup_fdAux p ids [], pairwise_fdAux p ids []⟩
  intro x
  rw [mem_fdAux]
  simp

/-! ## Claims C9, C5 and C10 -/

/-- C9: both manifest filters compute an order-preserving deduplicated
selection — the result holds exactly the manifest ids containing the task
substring, each exactly once, ordered by first occurrence in the manifest,
and no id outside the manifest. -/
theorem C9_manifest_filtering (model_list : List ManifestRecord) :
    (∀ x, x ∈ text_embedding_models model_list ↔
        x ∈ model_list.map (fun model => model.model_id) ∧
          strContains x "-tcembedding-" = true) ∧
    (text_embedding_models model_list).Nodup ∧
    (text_embedding_models model_list).Pairwise (fun a b =>
      (model_list.map (fun model => model.model_id)).indexOf a <
        (model_list.map (fun model => model.model_id)).indexOf b) ∧
    (∀ x, x ∈ eqa_models model_list ↔
        x ∈ model_list.map (fun model => model.model_id) ∧
          strContains x "-eqa-" = true) ∧
    (eqa_models model_list).Nodup ∧
    (eqa_models model_list).Pairwise (fun a b =>
      (model_list.map (fun model => model.model_id)).indexOf a <
        (model_list.map (fun model => model.model_id)).indexOf b) := by
  have htc := dedupAppend_spec (fun model_id => strContains model_id "-tcembedding-")
    (model_list.map (fun model => model.model_id))
  have heqa := dedupAppend_spec (fun model_id => strContains model_id "-eqa-")
    (model_list.map (fun model => model.model_id))
  have heq : eqa_models model_list =
      dedupAppend (fun model_id => strContains model_id "-eqa-") []
        (model_list.map (fun model => model.model_id)) := by
    rw [eqa_models]
    rw [map_model_id_filter model_list (fun model_id => strContains model_id "-eqa-")]
    exact dedupAppend_filter _ _ []
  rw [text_embedding_models] at *
  rw [heq]
  exact ⟨htc.1, htc.2.1, htc.2.2, heqa.1, heqa.2.1, heqa.2.2⟩

/-- C5: the embedding and semantic segmentation `parse_response` helpers
treat the response as an opaque JSON dictionary — whenever the bytes
decode to a JSON object holding the expected keys, exactly the stored
values are returned unchanged, and the helpers fail precisely when the
bytes are not valid JSON or a required key is absent (Python `KeyError`
on a missing key and `TypeError` on a non-dict are both failure). -/
theorem C5_parse_response_passthrough (jsonLoads : List Nat → Option Json)
    (s : List Nat) :
    (∀ d v, jsonLoads s = some d → jsonGet d "embedding" = some v →
      parse_response_embedding jsonLoads s = some v) ∧
    (parse_response_embedding jsonLoads s = none ↔
      jsonLoads s = none ∨
        ∃ d, jsonLoads s = some d ∧ jsonGet d "embedding" = none) ∧
    (∀ d p l il, jsonLoads s = some d →
      jsonGet d "predictions" = some p → jsonGet d "labels" = some l →
      jsonGet d "image_labels" = some il →
      parse_response_semseg jsonLoads s = some (p, l, il)) ∧
    (parse_response_semseg jsonLoads s = none ↔
      jsonLoads s = none ∨
        ∃ d, jsonLoads s = some d ∧
          (jsonGet d "predictions" = none ∨ jsonGet d "labels" = none ∨
            jsonGet d "image_labels" = none)) := by
  refine ⟨?_, ?_, ?_, ?_⟩
  · intro d v hd hv
    rw [parse_response_embedding, hd, Option.some_bind, hv]
  · rw [parse_response_embedding]
    cases hd : jsonLoads s with
    | none => simp
    | some d =>
        rw [Option.some_bind]
        constructor
        · intro h
          exact Or.inr ⟨d, rfl, h⟩
        · rintro (h | ⟨d2, hd2, h⟩)
          · exact absurd h (by simp)
          · obtain rfl := Option.some_inj.mp hd2
            exact h
  · intro d p l il hd hp hl hil
    rw [parse_response_semseg, hd, Option.some_bind, hp, Option.some_bind,
      hl, Option.some_bind, hil, Option.map_some']
  · rw [parse_response_semseg]
    cases hd : jsonLoads s with
    | none => simp
    | some d =>
        rw [Option.some_bind]
        constructor
        · intro h
          refine Or.inr ⟨d, rfl, ?_⟩
          cases hp : jsonGet d "predictions" with
          | none => exact Or.inl rfl
          | some p =>
              rw [hp, Option.some_bind] at h
              cases hl : jsonGet d "labels" with
              | none => exact Or.inr (Or.inl rfl)
              | some l =>
                  rw [hl, Option.some_bind] at h
                  cases hil : jsonGet d "image_labels" with
                  | none => exact Or.inr (Or.inr rfl)
                  | some il => rw [hil] at h; simp at h
        · rintro (h | ⟨d2, hd2, h⟩)
          · exact absurd h (by simp)
          · obtain rfl := Option.some_inj.mp hd2
            rcases h with h | h | h
            · rw [h, Option.none_bind]
            · cases hp : jsonGet d "predictions" with
              | none => rw [Option.none_bind]
              | some p => rw [Option.some_bind, h, Option.none_bind]
            · cases hp : jsonGet d "predictions" with
              | none => rw [Option.none_bind]
              | some p =>
                  rw [Option.some_bind]
                  cases hl : jsonGet d "labels" with
                  | none => rw [Option.none_bind]
                  | some l => rw [Option.some_bind, h]; rfl

/-- A concrete abstract decoder for the C5 and C10 witnesses: every byte
string decodes to one fixed JSON object holding all the expected keys. -/
def witnessLoads : List Nat → Option Json :=
  fun _ => some (Json.obj
    [("embedding", Json.arr [Json.num "0.1"]),
     ("predictions", Json.arr [Json.num "7"]),
     ("labels", Json.arr [Json.str "person"]),
     ("image_labels", Json.arr [Json.str "person"]),
     ("answer", Json.str "SoCal")])

/-- Witness for C5 at the decoder `witnessLoads` and empty byte string. -/
theorem C5_parse_response_passthrough_witness :
    parse_response_embedding witnessLoads [] = some (Json.arr [Json.num "0.1"]) ∧
    parse_response_semseg witnessLoads [] =
      some (Json.arr [Json.num "7"], Json.arr [Json.str "person"],
        Json.arr [Json.str "person"]) :=
  ⟨(C5_parse_response_passthrough witnessLoads []).1 _ _ rfl rfl,
   (C5_parse_response_passthrough witnessLoads []).2.2.1 _ _ _ _ rfl rfl rfl rfl⟩

/-- C10: the question answering `parse_response` (both the pre-trained and
the fine-tuned copy) wraps the value stored under `"answer"` in a
one-element tuple — the trailing comma in `answer = (model_predictions["answer"],)`
builds a tuple, so the caller receives `(answer_value,)`, not the answer
itself. -/
theorem C10_parse_response_one_tuple (jsonLoads : List Nat → Option Json)
    (s : List Nat) (d a : Json) (hd : jsonLoads s = some d)
    (ha : jsonGet d "answer" = some a) :
    parse_response_eqa jsonLoads s = some [a] ∧
    parse_response_eqa_finetuned jsonLoads s = some [a] ∧
    ∀ t, parse_response_eqa jsonLoads s = some t →
      t.length = 1 ∧ t.getD 0 Json.null = a := by
  have h1 : parse_response_eqa jsonLoads s = some [a] := by
    rw [parse_response_eqa, hd, Option.some_bind, ha, Option.map_some']
  have h2 : parse_response_eqa_finetuned jsonLoads s = some [a] := by
    rw [parse_response_eqa_finetuned, hd, Option.some_bind, ha, Option.map_some']
  refine ⟨h1, h2, ?_⟩
  intro t ht
  rw [h1] at ht
  rw [← Option.some_inj.mp ht]
  exact ⟨rfl, rfl⟩

/-- Witness for C10 at the decoder `witnessLoads` and empty byte string. -/
theorem C10_parse_response_one_tuple_witness :
    parse_response_eqa witnessLoads [] = some [Json.str "SoCal"] ∧
    parse_response_eqa_finetuned witnessLoads [] = some [Json.str "SoCal"] ∧
    ∀ t, parse_response_eqa witnessLoads [] = some t →
      t.length = 1 ∧ t.getD 0 Json.null = Json.str "SoCal" :=
  C10_parse_response_one_tuple witnessLoads [] _ (Json.str "SoCal") rfl rfl

/-! ## Package installation helpers (lineage notebook) and retry configuration

Python source:
```
def install_sm_py_sdk():
    pySDK_name = "sagemaker.tar.gz"
    exit_code, _ = _download_from_s3("dist/sagemaker.tar.gz")
    if not exit_code:
        _install_wheel(pySDK_name)
    else:
        print(f"'{pySDK_name}' is not present in S3 Bucket. Installing from public PyPi...")
        execute_cmd("pip install sagemaker")

def install_boto_wheels():
    WHEELS = ["botocore.tar.gz", "boto3.tar.gz", "awscli.tar.gz"]
    for wheel_name in WHEELS:
        _path = f"boto3/{wheel_name}"
        exit_code, _ = _download_from_s3(_path)
        if not exit_code:
            _install_wheel(wheel_name)
        else:
            print(f"'{wheel_name}' is not present in S3 Bucket. Ignoring...")
```
`_download_from_s3` shells out to `aws s3 cp` through
`subprocess.getstatusoutput` and returns the pair (exit status, output);
the helpers are embedded as functions of that exit status (`not exit_code`
is true exactly for status 0).  The observable is which installation
action each helper takes. -/

inductive InstallAction where
  | installWheelFromS3 (wheel : String)
  | pipInstallPyPI (package : String)
  | skipWheel (wheel : String)
deriving DecidableEq

def install_sm_py_sdk (download_exit_code : Int) : InstallAction :=
  if download_exit_code = 0 then InstallAction.installWheelFromS3 "sagemaker.tar.gz"
  else InstallAction.pipInstallPyPI "sagemaker"

def install_boto_wheels (download_exit_code : String → Int) : List InstallAction :=
  ["botocore.tar.gz", "boto3.tar.gz", "awscli.tar.gz"].map (fun wheel_name =>
    if download_exit_code wheel_name = 0 then InstallAction.installWheelFromS3 wheel_name
    else InstallAction.skipWheel wheel_name)

/-- Retry configuration of the lineage notebook:
`config = Config(retries={"max_attempts": 50, "mode": "adaptive"})`, handed
to the vendor SDK as the `config` argument of
`boto3.client("sagemaker", config=config)` — a pass-through parameter, not
locally implemented control flow. -/
structure RetryCfg where
  max_attempts : Nat
  mode : String
deriving DecidableEq

def lineage_client_retries : RetryCfg :=
  { max_attempts := 50, mode := "adaptive" }

/-! ## Claim C1 -/

/-- C1 counterexample: `install_sm_py_sdk` does branch on the failure code
of an S3 download and takes an alternative action — at exit code 1 it
installs from public PyPI instead of installing the downloaded wheel, so
local error recovery beyond default SDK behaviour does exist. -/
theorem C1_counterexample :
    install_sm_py_sdk 1 = InstallAction.pipInstallPyPI "sagemaker" ∧
    install_sm_py_sdk 0 = InstallAction.installWheelFromS3 "sagemaker.tar.gz" ∧
    install_sm_py_sdk 1 ≠ install_sm_py_sdk 0 := by
  exact ⟨rfl, rfl, by decide⟩

/-! ## Query helpers and the calls they issue (C6, C7)

Each notebook defines a query helper that is straight-line code around a
single vendor-SDK invocation.  The SDK method (`model_predictor.predict`
or `boto3` `invoke_endpoint`) is an oracle supplied as a parameter, and
each helper returns the oracle's response together with the list of SDK
calls it issued, so "exactly one call, regardless of the response" is a
statement over all oracles.  Payload encoders from the Python standard
library (`json.dumps(...).encode("utf-8")`, reading image bytes from a
file, `DataFrame.to_csv(...).encode("utf-8")`) are likewise abstract
parameters; bodies are byte strings (`List Nat`). -/

/-- The headers dict passed to `Predictor.predict`. -/
structure ReqHeaders where
  contentType : String
  accept : Option String
deriving DecidableEq

inductive SdkCall where
  | predictCall (body : List Nat) (headers : ReqHeaders)
  | invokeEndpoint (endpoint_name : String) (content_type : String) (body : List Nat)
deriving DecidableEq

def isPredict : SdkCall → Bool
  | SdkCall.predictCall _ _ => true
  | SdkCall.invokeEndpoint _ _ _ => false

def callContentType : SdkCall → String
  | SdkCall.predictCall _ h => h.contentType
  | SdkCall.invokeEndpoint _ ct _ => ct

def callAccept : SdkCall → Option String
  | SdkCall.predictCall _ h => h.accept
  | SdkCall.invokeEndpoint _ _ _ => none

/-- Text embedding notebook:
```
def query(model_predictor, text):
    encoded_text = json.dumps(text).encode("utf-8")
    query_response = model_predictor.predict(
        encoded_text,
        {"ContentType": "application/x-text", "Accept": "application/json"},
    )
    return query_response
```
-/
def query_embedding (predict : List Nat → ReqHeaders → List Nat)
    (jsonDumpsUtf8 : String → List Nat) (text : String) :
    List Nat × List SdkCall :=
  let encoded_text := jsonDumpsUtf8 text
  let headers : ReqHeaders := ⟨"application/x-text", some "application/json"⟩
  (predict encoded_text headers, [SdkCall.predictCall encoded_text headers])

/-- Semantic segmentation notebook `query` (the body is the raw bytes of
the image file read before the call). -/
def query_semseg (predict : List Nat → ReqHeaders → List Nat)
    (input_img_rb : List Nat) : List Nat × List SdkCall :=
  let headers : ReqHeaders := ⟨"application/x-image", some "application/json;verbose"⟩
  (predict input_img_rb headers, [SdkCall.predictCall input_img_rb headers])

/-- Instance segmentation notebook `query`. -/
def query_isseg (predict : List Nat → ReqHeaders → List Nat)
    (input_img_rb : List Nat) : List Nat × List SdkCall :=
  let headers : ReqHeaders :=
    ⟨"application/x-image", some "application/json;verbose;n_predictions=2"⟩
  (predict input_img_rb headers, [SdkCall.predictCall input_img_rb headers])

/-- Image embedding notebook `query`. -/
def query_icembedding (predict : List Nat → ReqHeaders → List Nat)
    (input_img_rb : List Nat) : List Nat × List SdkCall :=
  let headers : ReqHeaders := ⟨"application/x-image", some "application/json"⟩
  (predict input_img_rb headers, [SdkCall.predictCall input_img_rb headers])

/-- Question answering notebook `query_endpoint` (defined identically for
the pre-trained and fine-tuned predictors; the caller passes the already
UTF-8-encoded JSON list of question and context). -/
def query_endpoint_eqa (predict : List Nat → ReqHeaders → List Nat)
    (encoded_text : List Nat) : List Nat × List SdkCall :=
  let headers : ReqHeaders := ⟨"application/list-text", some "application/json;verbose"⟩
  (predict encoded_text headers, [SdkCall.predictCall encoded_text headers])

/-- Tabular regression notebook:
```
content_type = "text/csv"
def query_endpoint(encoded_tabular_data):
    client = boto3.client("runtime.sagemaker")
    response = client.invoke_endpoint(
        EndpointName=endpoint_name, ContentType=content_type, Body=encoded_tabular_data
    )
    return response
```
-/
def query_endpoint_tabular (invoke : String → String → List Nat → List Nat)
    (endpoint_name : String) (encoded_tabular_data : List Nat) :
    List Nat × List SdkCall :=
  let content_type := "text/csv"
  (invoke endpoint_name content_type encoded_tabular_data,
   [SdkCall.invokeEndpoint endpoint_name content_type encoded_tabular_data])

/-! ## Claim C6 -/

/-- C6: every query helper issues exactly one endpoint invocation per
call, whatever the predictor oracle responds — no local retry loop — and
the only retry configuration in the repository is the value passed to the
vendor SDK's client. -/
theorem C6_single_invocation_per_query :
    (∀ predict enc text,
      ((query_embedding predict enc text).2.countP (fun c => isPredict c)) = 1 ∧
      (query_embedding predict enc text).2.length = 1) ∧
    (∀ predict img,
      ((query_semseg predict img).2.countP (fun c => isPredict c)) = 1 ∧
      (query_semseg predict img).2.length = 1) ∧
    (∀ predict img,
      ((query_isseg predict img).2.countP (fun c => isPredict c)) = 1 ∧
      (query_isseg predict img).2.length = 1) ∧
    (∀ predict img,
      ((query_icembedding predict img).2.countP (fun c => isPredict c)) = 1 ∧
      (query_icembedding predict img).2.length = 1) ∧
    (∀ predict encoded,
      ((query_endpoint_eqa predict encoded).2.countP (fun c => isPredict c)) = 1 ∧
      (query_endpoint_eqa predict encoded).2.length = 1) ∧
    (∀ invoke name encoded,
      (query_endpoint_tabular invoke name encoded).2.length = 1) ∧
    lineage_client_retries = { max_attempts := 50, mode := "adaptive" } :=
  ⟨fun _ _ _ => ⟨rfl, rfl⟩, fun _ _ => ⟨rfl, rfl⟩, fun _ _ => ⟨rfl, rfl⟩,
   fun _ _ => ⟨rfl, rfl⟩, fun _ _ => ⟨rfl, rfl⟩, fun _ _ _ => rfl, rfl⟩

/-! ## Claim C7 -/

def allowedContentTypes : List String :=
  ["application/x-text", "application/list-text", "application/x-image", "text/csv"]

def allowedAccepts : List String :=
  ["application/json", "application/json;verbose",
   "application/json;verbose;n_predictions=2"]

/-- A call selects its format admissibly: its content type is one of the
four used in the repository, and its Accept header, when present, is
`application/json` possibly extended with `;verbose` or
`;n_predictions=...`. -/
def formatOk (c : SdkCall) : Prop :=
  callContentType c ∈ allowedContentTypes ∧
    match callAccept c with
    | none => True
    | some a => isPrefixOfL "application/json".toList a.toList = true ∧
        a ∈ allowedAccepts

instance (c : SdkCall) : Decidable (formatOk c) := by
  unfold formatOk
  cases callAccept c <;> exact inferInstance

/-- C7: every endpoint invocation issued by any query helper carries a
byte-string body together with a ContentType header drawn from
`application/x-text`, `application/list-text`, `application/x-image`,
`text/csv`, and — whenever an Accept header requests the output format —
that header is `application/json`, possibly extended with `;verbose` or
`;n_predictions=...`. -/
theorem C7_payload_format_headers :
    (∀ predict enc text c, c ∈ (query_embedding predict enc text).2 → formatOk c) ∧
    (∀ predict img c, c ∈ (query_semseg predict img).2 → formatOk c) ∧
    (∀ predict img c, c ∈ (query_isseg predict img).2 → formatOk c) ∧
    (∀ predict img c, c ∈ (query_icembedding predict img).2 → formatOk c) ∧
    (∀ predict encoded c, c ∈ (query_endpoint_eqa predict encoded).2 → formatOk c) ∧
    (∀ invoke name encoded c,
      c ∈ (query_endpoint_tabular invoke name encoded).2 → formatOk c) := by
  refine ⟨?_, ?_, ?_, ?_, ?_, ?_⟩
  · intro _ _ _ c hc
    rw [List.mem_singleton.mp hc]
    simp only [formatOk, callContentType, callAccept]
    decide
  · intro _ _ c hc
    rw [List.mem_singleton.mp hc]
    simp only [formatOk, callContentType, callAccept]
    decide
  · intro _ _ c hc
    rw [List.mem_singleton.mp hc]
    simp only [formatOk, callContentType, callAccept]
    decide
  · intro _ _ c hc
    rw [List.mem_singleton.mp hc]
    simp only [formatOk, callContentType, callAccept]
    decide
  · intro _ _ c hc
    rw [List.mem_singleton.mp hc]
    simp only [formatOk, callContentType, callAccept]
    decide
  · intro _ name _ c hc
    rw [List.mem_singleton.mp hc]
    simp only [formatOk, callContentType, callAccept]
    exact ⟨by decide, trivial⟩

/-- Witness for C7 with a trivial predictor oracle on each helper's single
emitted call. -/
theorem C7_payload_format_headers_witness :
    formatOk (SdkCall.predictCall []
      ⟨"application/x-text", some "application/json"⟩) ∧
    formatOk (SdkCall.invokeEndpoint "jumpstart-example-ep" "text/csv" []) :=
  ⟨C7_payload_format_headers.1 (fun _ _ => []) (fun _ => []) "text"
      (SdkCall.predictCall [] ⟨"application/x-text", some "application/json"⟩)
      (List.mem_singleton.mpr rfl),
   C7_payload_format_headers.2.2.2.2.2 (fun _ _ _ => []) "jumpstart-example-ep" []
      (SdkCall.invokeEndpoint "jumpstart-example-ep" "text/csv" [])
      (List.mem_singleton.mpr rfl)⟩

/-! ## Lineage query post-processing (C4)

Every `LineageQuery(sagemaker_session).query(...)` call in the lineage
notebook passes `include_edges=False`, and the result is consumed by one
of three loop shapes, each a single `for vertex in query_result.vertices`
append loop:
```
dataset_artifacts = []
for vertex in query_result.vertices:
    dataset_artifacts.append(vertex.to_lineage_object().source.source_uri)
```
```
trial_components = []
for vertex in query_result.vertices:
    trial_components.append(vertex.arn)
```
```
for vertex in query_result.vertices:
    try:
        ascendant_artifacts.append(vertex.to_lineage_object().source.source_uri)
    except:
        ascendant_artifacts.append(vertex.arn)
```
`vertex.to_lineage_object()` is a vendor SDK call that raises for vertices
without a lineage object (e.g. trial components); it is modelled as an
`Option` field of the vertex. -/

structure LineageSource where
  source_uri : String

structure LineageObj where
  source : LineageSource

structure Vertex where
  arn : String
  to_lineage_object : Option LineageObj

/-- `vertex.to_lineage_object().source.source_uri`, failing when the
conversion raises. -/
def uriOfVertex (v : Vertex) : Option String :=
  v.to_lineage_object.map (fun o => o.source.source_uri)

/-- The plain `append(vertex.to_lineage_object().source.source_uri)` loop;
an exception (modelled `none`) propagates. -/
def collect_source_uris (vertices : List Vertex) : Option (List String) :=
  vertices.foldl
    (fun acc vertex => acc.bind (fun l => (uriOfVertex vertex).map (fun u => l ++ [u])))
    (some [])

/-- The `append(vertex.arn)` loop. -/
def collect_arns (vertices : List Vertex) : List String :=
  vertices.foldl (fun acc vertex => acc ++ [vertex.arn]) []

/-- The `try ... except: append(vertex.arn)` loop. -/
def collect_uris_or_arns (vertices : List Vertex) : List String :=
  vertices.foldl
    (fun acc vertex => acc ++ [(uriOfVertex vertex).getD vertex.arn]) []

/-- The `include_edges` argument of each of the eight
`LineageQuery(...).query(...)` calls of the notebook, in cell order. -/
def lineage_query_include_edges : List Bool :=
  [false, false, false, false, false, false, false, false]

lemma foldl_append_eq_map {α β : Type} (f : α → β) (l : List α) :
    ∀ acc : List β, l.foldl (fun acc v => acc ++ [f v]) acc = acc ++ l.map f := by
  induction l with
  | nil => intro acc; simp
  | cons v rest ih =>
      intro acc
      rw [List.foldl_cons, ih, List.map_cons]
      simp

lemma collect_source_uris_eq (vertices : List Vertex)
    (hconv : ∀ v ∈ vertices, (uriOfVertex v).isSome) :
    collect_source_uris vertices =
      some (vertices.map (fun v => (uriOfVertex v).getD "")) := by
  rw [collect_source_uris]
  suffices h : ∀ acc : List String,
      vertices.foldl
        (fun acc vertex =>
          acc.bind (fun l => (uriOfVertex vertex).map (fun u => l ++ [u])))
        (some acc) =
      some (acc ++ vertices.map (fun v => (uriOfVertex v).getD "")) by
    simpa using h []
  induction vertices with
  | nil => intro acc; simp
  | cons v rest ih =>
      intro acc
      obtain ⟨u, hu⟩ := Option.isSome_iff_exists.mp (hconv v (List.mem_cons_self v rest))
      rw [List.foldl_cons, Option.some_bind, hu, Option.map_some',
        ih (fun w hw => hconv w (List.mem_cons_of_mem v hw)), List.map_cons]
      simp [hu]

/-- C4: the lineage notebook's local post-processing of every
`LineageQuery.query` result is one linear pass over the returned vertex
list — each loop shape produces exactly one output per vertex, the output
at a position depends only on the vertex at that position, and no edges
are consumed locally (every query passes `include_edges=False`). -/
theorem C4_lineage_single_pass (vertices : List Vertex)
    (hconv : ∀ v ∈ vertices, (uriOfVertex v).isSome) :
    collect_source_uris vertices =
      some (vertices.map (fun v => (uriOfVertex v).getD "")) ∧
    collect_arns vertices = vertices.map (fun v => v.arn) ∧
    collect_uris_or_arns vertices =
      vertices.map (fun v => (uriOfVertex v).getD v.arn) ∧
    (collect_arns vertices).length = vertices.length ∧
    (collect_uris_or_arns vertices).length = vertices.length ∧
    (∀ b ∈ lineage_query_include_edges, b = false) := by
  have h1 := collect_source_uris_eq vertices hconv
  have h2 : collect_arns vertices = vertices.map (fun v => v.arn) := by
    rw [collect_arns, foldl_append_eq_map]
    simp
  have h3 : collect_uris_or_arns vertices =
      vertices.map (fun v => (uriOfVertex v).getD v.arn) := by
    rw [collect_uris_or_arns, foldl_append_eq_map]
    simp
  refine ⟨h1, h2, h3, ?_, ?_, ?_⟩
  · rw [h2, List.length_map]
  · rw [h3, List.length_map]
  · intro b hb
    simpa [lineage_query_include_edges] using hb

/-- Witness for C4 on a two-vertex result (one convertible dataset
artifact, one convertible model artifact). -/
theorem C4_lineage_single_pass_witness :
    collect_source_uris
        [⟨"arn:a", some ⟨⟨"s3://data"⟩⟩⟩, ⟨"arn:b", some ⟨⟨"s3://model"⟩⟩⟩] =
      some ["s3://data", "s3://model"] ∧
    collect_arns [⟨"arn:a", some ⟨⟨"s3://data"⟩⟩⟩, ⟨"arn:b", some ⟨⟨"s3://model"⟩⟩⟩] =
      ["arn:a", "arn:b"] := by
  have h := C4_lineage_single_pass
    [⟨"arn:a", some ⟨⟨"s3://data"⟩⟩⟩, ⟨"arn:b", some ⟨⟨"s3://model"⟩⟩⟩]
    (by
      intro v hv
      rcases List.mem_cons.mp hv with h | hv2
      · subst h; rfl
      rcases List.mem_cons.mp hv2 with h | hv3
      · subst h; rfl
      · cases hv3)
  exact ⟨h.1, h.2.1⟩

/-! ## Experiment cleanup (`delete_experiment`, lineage notebook)

Python source (the inner loop over one trial's components):
```
for trial_component_summary in trial.list_trial_components():
    tc = TrialComponent.load(
        trial_component_name=trial_component_summary.trial_component_name
    )
    trial.remove_trial_component(tc)
    try:
        # comment out to keep trial components
        tc.delete()
    except:
        # tc is associated with another trial
        continue
    # to prevent throttling
    time.sleep(0.5)
```
`tc.delete()` is a vendor SDK call that raises when the component is
associated with another trial; whether it raises is the oracle
`deleteRaises`.  The bare `except: continue` swallows the failure and
moves on to the next component instead of propagating, so every component
in the list is still processed. -/

inductive CleanupAction where
  | removedComponent (tc : String)
  | deletedComponent (tc : String)
  | skippedComponent (tc : String)
deriving DecidableEq

/-- The per-component actions of the inner loop of `delete_experiment`,
in iteration order. -/
def delete_experiment_components (deleteRaises : String → Bool)
    (trial_components : List String) : List CleanupAction :=
  trial_components.flatMap (fun tc =>
    [CleanupAction.removedComponent tc] ++
      (if deleteRaises tc then [CleanupAction.skippedComponent tc]
       else [CleanupAction.deletedComponent tc]))

/-- C1 amended: local recovery beyond default SDK behaviour does exist,
all of it in the lineage notebook, and these are exactly the sites:
(i) `install_sm_py_sdk` falls back to installing from public PyPI exactly
when the S3 download exits nonzero, and `install_boto_wheels` skips a
wheel exactly when its download exits nonzero, never falling back to
PyPI; (ii) the ascendant/descendant query loops catch the exception of
`vertex.to_lineage_object()` and append `vertex.arn` instead of letting
it propagate; (iii) `delete_experiment` catches a failing trial-component
delete and continues, so every component is still processed and a failed
one is skipped rather than propagated; and (iv) the only non-default
retry policy, max_attempts 50 in adaptive mode, is a configuration value
passed through to the vendor SDK's client rather than a locally
implemented retry loop.  Elsewhere vendor SDK failures propagate to the
caller unchanged. -/
theorem C1_local_recovery_amended :
    (∀ c : Int, c ≠ 0 →
      install_sm_py_sdk c = InstallAction.pipInstallPyPI "sagemaker") ∧
    install_sm_py_sdk 0 = InstallAction.installWheelFromS3 "sagemaker.tar.gz" ∧
    (∀ (download_exit_code : String → Int) (w : String),
      w ∈ ["botocore.tar.gz", "boto3.tar.gz", "awscli.tar.gz"] →
        ((download_exit_code w = 0 →
          InstallAction.installWheelFromS3 w ∈ install_boto_wheels download_exit_code) ∧
         (download_exit_code w ≠ 0 →
          InstallAction.skipWheel w ∈ install_boto_wheels download_exit_code))) ∧
    (∀ (download_exit_code : String → Int) (package : String),
      InstallAction.pipInstallPyPI package ∉ install_boto_wheels download_exit_code) ∧
    (∀ vertices : List Vertex, collect_uris_or_arns vertices =
      vertices.map (fun v => (uriOfVertex v).getD v.arn)) ∧
    (∀ v : Vertex, v.to_lineage_object = none →
      collect_uris_or_arns [v] = [v.arn]) ∧
    (∀ (deleteRaises : String → Bool) (tcs : List String) (tc : String),
      tc ∈ tcs →
        (CleanupAction.removedComponent tc ∈
          delete_experiment_components deleteRaises tcs) ∧
        (deleteRaises tc = true →
          CleanupAction.skippedComponent tc ∈
            delete_experiment_components deleteRaises tcs) ∧
        (deleteRaises tc = false →
          CleanupAction.deletedComponent tc ∈
            delete_experiment_components deleteRaises tcs)) ∧
    lineage_client_retries.max_attempts = 50 ∧
    lineage_client_retries.mode = "adaptive" := by
  refine ⟨?_, rfl, ?_, ?_, ?_, ?_, ?_, rfl, rfl⟩
  · intro c hc
    rw [install_sm_py_sdk, if_neg hc]
  · intro f w hw
    constructor
    · intro h0
      rw [install_boto_wheels]
      refine List.mem_map.mpr ⟨w, hw, ?_⟩
      rw [if_pos h0]
    · intro hne
      rw [install_boto_wheels]
      refine List.mem_map.mpr ⟨w, hw, ?_⟩
      rw [if_neg hne]
  · intro f package hmem
    rw [install_boto_wheels] at hmem
    obtain ⟨w, _, hw⟩ := List.mem_map.mp hmem
    by_cases h0 : f w = 0
    · rw [if_pos h0] at hw; exact InstallAction.noConfusion hw
    · rw [if_neg h0] at hw; exact InstallAction.noConfusion hw
  · intro vertices
    rw [collect_uris_or_arns, foldl_append_eq_map]
    simp
  · intro v hv
    simp [collect_uris_or_arns, uriOfVertex, hv]
  · intro deleteRaises tcs tc htc
    refine ⟨?_, ?_, ?_⟩
    · exact List.mem_flatMap.mpr ⟨tc, htc, List.mem_append_left _ (by simp)⟩
    · intro hr
      refine List.mem_flatMap.mpr ⟨tc, htc, List.mem_append_right _ ?_⟩
      rw [if_pos hr]
      simp
    · intro hr
      refine List.mem_flatMap.mpr ⟨tc, htc, List.mem_append_right _ ?_⟩
      rw [if_neg (by simp [hr])]
      simp

/-- Witness for C1's amended statement: exit code 1, a download oracle
failing on every wheel, a vertex whose lineage-object conversion raises,
and a trial component whose delete raises. -/
theorem C1_local_recovery_amended_witness :
    install_sm_py_sdk 1 = InstallAction.pipInstallPyPI "sagemaker" ∧
    InstallAction.skipWheel "boto3.tar.gz" ∈ install_boto_wheels (fun _ => 1) ∧
    collect_uris_or_arns [⟨"arn:tc", none⟩] = ["arn:tc"] ∧
    CleanupAction.skippedComponent "tc1" ∈
      delete_experiment_components (fun _ => true) ["tc1"] :=
  ⟨C1_local_recovery_amended.1 1 (by decide),
   (C1_local_recovery_amended.2.2.1 (fun _ => 1) "boto3.tar.gz"
      (by decide)).2 (by decide),
   C1_local_recovery_amended.2.2.2.2.2.1 ⟨"arn:tc", none⟩ rfl,
   (C1_local_recovery_amended.2.2.2.2.2.2.1 (fun _ => true) ["tc1"] "tc1"
      (List.mem_singleton.mpr rfl)).2.1 rfl⟩

/-! ## Notebook call traces (C3)

Each notebook is straight-line cell code, so the sequence of vendor-SDK
calls it issues is a fixed trace.  The traces below list, in cell order,
the occurrences of the call kinds named by the claim (manifest download,
model selection, URI retrieval, model/estimator construction,
hyperparameter retrieval, training-job launch, deploy, predict, response
parsing, auxiliary S3 file downloads, model/endpoint deletion, and the
lineage notebook's registry and query calls).  Loops in the sources
iterate over literal lists (7 similarity sentences, 2 question-context
pairs, 2 images), so their iterations are expanded.  Session setup
(`get_execution_role`, `sagemaker.Session()`) and `pip install` shell
lines fall under none of the claim's categories and are not traced.
Endpoints are identified per deployment. -/

inductive Ep where
  | embedEp | eqaBaseEp | eqaFtEp | tabularEp
  | semsegBaseEp | semsegFtEp | issegEp | icembedEp | lineageEp
deriving DecidableEq

inductive NbEvent where
  | manifestDownload
  | selectModel
  | retrieveUri
  | retrieveHyperparams
  | constructModel (ep : Ep)
  | constructEstimator (ep : Ep)
  | fitTrainingJob
  | deployEndpoint (ep : Ep)
  | predictOn (ep : Ep)
  | parseResponseStep (ep : Ep)
  | s3FileDownload
  | s3FileUpload
  | deleteModelCall (ep : Ep)
  | deleteEndpointCall (ep : Ep)
  | createModelPackageGroupCall
  | registerModelPackageCall
  | describeEndpointCall
  | lineageQueryCall
  | queryLineageApiCall
  | deleteModelPackageCall
  | deleteModelPackageGroupCall
  | experimentCleanup
deriving DecidableEq

/-- Text embedding notebook (`part_000`, first notebook): manifest,
dropdown selection, three URI retrievals, `Model(...)`, deploy, one
`query`/`parse_response` pair for `input_text`, seven more for the
similarity sentences, then `delete_model` and `delete_endpoint`. -/
def embedNotebookTrace : List NbEvent :=
  [.manifestDownload, .selectModel,
   .retrieveUri, .retrieveUri, .retrieveUri,
   .constructModel .embedEp, .deployEndpoint .embedEp,
   .predictOn .embedEp, .parseResponseStep .embedEp,
   .predictOn .embedEp, .parseResponseStep .embedEp,
   .predictOn .embedEp, .parseResponseStep .embedEp,
   .predictOn .embedEp, .parseResponseStep .embedEp,
   .predictOn .embedEp, .parseResponseStep .embedEp,
   .predictOn .embedEp, .parseResponseStep .embedEp,
   .predictOn .embedEp, .parseResponseStep .embedEp,
   .predictOn .embedEp, .parseResponseStep .embedEp,
   .deleteModelCall .embedEp, .deleteEndpointCall .embedEp]

/-- Question answering notebook (`part_000`, second notebook): the
pre-trained section, then fine-tuning (training URIs, hyperparameters,
`Estimator`, `fit`, inference URIs, deploy) and the fine-tuned section. -/
def eqaNotebookTrace : List NbEvent :=
  [.manifestDownload, .selectModel,
   .retrieveUri, .retrieveUri, .retrieveUri,
   .constructModel .eqaBaseEp, .deployEndpoint .eqaBaseEp,
   .predictOn .eqaBaseEp, .parseResponseStep .eqaBaseEp,
   .predictOn .eqaBaseEp, .parseResponseStep .eqaBaseEp,
   .deleteModelCall .eqaBaseEp, .deleteEndpointCall .eqaBaseEp,
   .retrieveUri, .retrieveUri, .retrieveUri,
   .retrieveHyperparams,
   .constructEstimator .eqaFtEp, .fitTrainingJob,
   .retrieveUri, .retrieveUri,
   .deployEndpoint .eqaFtEp,
   .predictOn .eqaFtEp, .parseResponseStep .eqaFtEp,
   .predictOn .eqaFtEp, .parseResponseStep .eqaFtEp,
   .deleteModelCall .eqaFtEp, .deleteEndpointCall .eqaFtEp]

/-- Tabular regression notebook: no manifest download or dropdown at all —
the model id is hard-coded — and deployment goes through an `Estimator`
after a training job, not through a `Model` object. -/
def tabularNotebookTrace : List NbEvent :=
  [.retrieveUri, .retrieveUri, .retrieveUri,
   .retrieveHyperparams,
   .constructEstimator .tabularEp, .fitTrainingJob,
   .retrieveUri, .retrieveUri,
   .deployEndpoint .tabularEp,
   .s3FileDownload,
   .predictOn .tabularEp, .parseResponseStep .tabularEp,
   .deleteModelCall .tabularEp, .deleteEndpointCall .tabularEp]

/-- Semantic segmentation notebook: pre-trained section, then fine-tuning
and the fine-tuned section. -/
def semsegNotebookTrace : List NbEvent :=
  [.manifestDownload, .selectModel,
   .retrieveUri, .retrieveUri, .retrieveUri,
   .constructModel .semsegBaseEp, .deployEndpoint .semsegBaseEp,
   .s3FileDownload,
   .predictOn .semsegBaseEp, .parseResponseStep .semsegBaseEp,
   .deleteModelCall .semsegBaseEp, .deleteEndpointCall .semsegBaseEp,
   .retrieveUri, .retrieveUri, .retrieveUri,
   .retrieveHyperparams,
   .constructEstimator .semsegFtEp, .fitTrainingJob,
   .retrieveUri, .retrieveUri,
   .deployEndpoint .semsegFtEp,
   .s3FileDownload,
   .predictOn .semsegFtEp, .parseResponseStep .semsegFtEp,
   .deleteModelCall .semsegFtEp, .deleteEndpointCall .semsegFtEp]

/-- Instance segmentation notebook (first notebook of its file). -/
def issegNotebookTrace : List NbEvent :=
  [.manifestDownload, .selectModel,
   .retrieveUri, .retrieveUri, .retrieveUri,
   .constructModel .issegEp, .deployEndpoint .issegEp,
   .s3FileDownload,
   .predictOn .issegEp, .parseResponseStep .issegEp,
   .deleteModelCall .issegEp, .deleteEndpointCall .issegEp]

/-- Image embedding notebook (second notebook of the semantic
segmentation file): two asset downloads, then a query/parse pair per
image. -/
def icembedNotebookTrace : List NbEvent :=
  [.manifestDownload, .selectModel,
   .retrieveUri, .retrieveUri, .retrieveUri,
   .constructModel .icembedEp, .deployEndpoint .icembedEp,
   .s3FileDownload, .s3FileDownload,
   .predictOn .icembedEp, .parseResponseStep .icembedEp,
   .predictOn .icembedEp, .parseResponseStep .icembedEp,
   .deleteModelCall .icembedEp, .deleteEndpointCall .icembedEp]

/-- Lineage notebook (second notebook of the instance segmentation file):
dataset downloads and uploads, training, model registry, deploy, the
eight `LineageQuery` calls and SDK helper wrappers, two `query_lineage`
calls for visualization, then cleanup.  It never invokes the endpoint. -/
def lineageNotebookTrace : List NbEvent :=
  [.s3FileDownload, .s3FileDownload, .s3FileDownload,
   .s3FileUpload, .s3FileUpload,
   .retrieveUri,
   .constructEstimator .lineageEp, .fitTrainingJob,
   .createModelPackageGroupCall, .registerModelPackageCall,
   .deployEndpoint .lineageEp, .describeEndpointCall,
   .lineageQueryCall, .lineageQueryCall, .lineageQueryCall,
   .lineageQueryCall, .lineageQueryCall, .lineageQueryCall,
   .lineageQueryCall, .lineageQueryCall,
   .queryLineageApiCall, .queryLineageApiCall,
   .deleteEndpointCall .lineageEp,
   .deleteModelPackageCall, .deleteModelPackageGroupCall,
   .experimentCleanup]

def notebookTraces : List (List NbEvent) :=
  [embedNotebookTrace, eqaNotebookTrace, tabularNotebookTrace,
   semsegNotebookTrace, issegNotebookTrace, icembedNotebookTrace,
   lineageNotebookTrace]

/-- Boolean subsequence test (order-preserving containment). -/
def isSubseq {α : Type} [DecidableEq α] : List α → List α → Bool
  | [], _ => true
  | _ :: _, [] => false
  | a :: l1, b :: l2 => if a = b then isSubseq l1 l2 else isSubseq (a :: l1) l2

/-- The fixed order that the claim asserts of every model-deployment
notebook, for the notebook's endpoint `ep`: manifest download, model
selection, URI retrieval, `Model` construction, deploy, predict, response
parsing, and finally model and endpoint deletion. -/
def deploymentTemplate (ep : Ep) : List NbEvent :=
  [.manifestDownload, .selectModel, .retrieveUri, .constructModel ep,
   .deployEndpoint ep, .predictOn ep, .parseResponseStep ep,
   .deleteModelCall ep, .deleteEndpointCall ep]

/-- The fold state of `predictWindowOk`: endpoints deployed so far,
endpoints deleted so far, and whether every predict so far was legal. -/
def windowStep (st : List Ep × List Ep × Bool) (e : NbEvent) :
    List Ep × List Ep × Bool :=
  match e with
  | .deployEndpoint ep => (ep :: st.1, st.2.1, st.2.2)
  | .deleteEndpointCall ep => (st.1, ep :: st.2.1, st.2.2)
  | .predictOn ep =>
      (st.1, st.2.1, st.2.2 && st.1.contains ep && !(st.2.1.contains ep))
  | _ => st

/-- Every predict in the trace targets an endpoint already deployed and
not yet deleted. -/
def predictWindowOk (t : List NbEvent) : Bool :=
  (t.foldl windowStep ([], [], true)).2.2

/-- C3 counterexample: the tabular regression notebook does not follow the
claimed fixed order — even read as loosely as possible (the eight named
steps occurring as a subsequence of the notebook's calls), it fails,
because the notebook downloads no model manifest, selects no model id
from one, and constructs no `Model` object (it deploys from an
`Estimator` after a training job). -/
theorem C3_counterexample :
    isSubseq (deploymentTemplate Ep.tabularEp) tabularNotebookTrace = false ∧
    NbEvent.manifestDownload ∉ tabularNotebookTrace ∧
    NbEvent.constructModel Ep.tabularEp ∉ tabularNotebookTrace ∧
    NbEvent.fitTrainingJob ∈ tabularNotebookTrace := by
  refine ⟨rfl, by decide, by decide, by decide⟩

/-- C3 amended: the JumpStart inference notebooks (text embedding,
question answering, semantic segmentation, instance segmentation, image
embedding) do issue the claimed fixed sequence — manifest download, model
selection, URI retrieval, `Model` construction, deploy, predict, parse,
delete model and endpoint — for their pre-trained endpoints; the tabular
notebook and the fine-tuning sections instead retrieve URIs, build an
`Estimator`, launch a training job and deploy from it; and in every
notebook no predict is issued before the deploy of its endpoint and none
after that endpoint's deletion. -/
theorem C3_deployment_order_amended :
    isSubseq (deploymentTemplate Ep.embedEp) embedNotebookTrace = true ∧
    isSubseq (deploymentTemplate Ep.eqaBaseEp) eqaNotebookTrace = true ∧
    isSubseq (deploymentTemplate Ep.semsegBaseEp) semsegNotebookTrace = true ∧
    isSubseq (deploymentTemplate Ep.issegEp) issegNotebookTrace = true ∧
    isSubseq (deploymentTemplate Ep.icembedEp) icembedNotebookTrace = true ∧
    isSubseq [NbEvent.retrieveUri, NbEvent.constructEstimator Ep.tabularEp,
        NbEvent.fitTrainingJob, NbEvent.deployEndpoint Ep.tabularEp,
        NbEvent.predictOn Ep.tabularEp, NbEvent.parseResponseStep Ep.tabularEp,
        NbEvent.deleteModelCall Ep.tabularEp,
        NbEvent.deleteEndpointCall Ep.tabularEp]
      tabularNotebookTrace = true ∧
    (∀ t ∈ notebookTraces, predictWindowOk t = true) := by
  refine ⟨rfl, rfl, rfl, rfl, rfl, rfl, ?_⟩
  decide

end SMExamples
